import Mathlib

/-!
Shallow embedding of the polling-and-reservation script
(scripts/monitor_and_reserve.py) of the korail2 repository.

The script's pure logic is translated into executable Lean definitions:

* the credential normalizer (normalize_id, lines 33-38),
* the interval clamp (lines 134 and 213),
* the range-mode candidate selector (lines 151-156): end-time filter,
  general-seat filter, stable sort by the key pair (dep_date, dep_time),
  and Python list slicing trains[:limit],
* the exact-mode candidate selector (lines 231-242): exact field match
  and first-element pick,
* the per-candidate reservation loop of range mode (lines 159-179),
* the loop-boundary state machine shared by both poll loops
  (lines 138-196 and 217-278): attempt counter, relogin counter, the
  except handlers for NoResultsError, NeedToLoginError, SoldOutError
  and the catch-all, and the end-of-iteration sleep.

Blocking I/O (search, reserve, login, sleep, Telegram notify) is
abstracted by oracle parameters and by recording, for each iteration,
which effects the control flow reaches.
-/

namespace MonitorAndReserve

/-- One row of a search result, with exactly the fields of the korail2
train objects that the script reads: dep_date, dep_time, dep_name,
arr_name, and the result of has_general_seat(). -/
structure TrainCandidate where
  dep_date : String
  dep_time : String
  dep_name : String
  arr_name : String
  has_general_seat : Bool
  deriving DecidableEq, Repr

/-- Lexicographic less-or-equal on code-point sequences: how Python
compares two strings. -/
def charListLe : List Char → List Char → Bool
  | [], _ => true
  | _ :: _, [] => false
  | a :: as, b :: bs =>
      if a.toNat < b.toNat then true
      else if a.toNat = b.toNat then charListLe as bs
      else false

/-- Python string comparison s1 <= s2: lexicographic on code points. -/
def strLe (a b : String) : Bool :=
  charListLe a.toList b.toList

/-- Line 155: trains.sort(key=lambda t: (t.dep_date, t.dep_time)).
Python compares key tuples lexicographically, and the fields are
strings compared lexicographically, so the sort order is this relation:
compare dates first, and times only between equal dates. -/
def keyLe (a b : TrainCandidate) : Bool :=
  if a.dep_date == b.dep_date then strLe a.dep_time b.dep_time
  else strLe a.dep_date b.dep_date

/-- Python slicing xs[:n] for an arbitrary integer n: for nonnegative n
the first n elements, for negative n everything but the last n elements
(that is, the first len+n elements, clamped at zero). -/
def pySliceTo {α : Type} (n : Int) (xs : List α) : List α :=
  if 0 ≤ n then xs.take n.toNat
  else xs.take (xs.length - (-n).toNat)

/-- Lines 151-154: the optional end-time filter
(t.dep_time <= end_time, string comparison) followed by the
general-seat filter (t.has_general_seat()). -/
def eligibleTrains (end_time : Option String) (trains : List TrainCandidate) :
    List TrainCandidate :=
  let ts1 : List TrainCandidate := match end_time with
    | some e => trains.filter (fun t => strLe t.dep_time e)
    | none => trains
  ts1.filter (fun t => t.has_general_seat)

/-- Lines 151-156: the whole range-mode shortlist computation — filters,
stable sort by (dep_date, dep_time), then trains[:limit]. -/
def selectRange (end_time : Option String) (limit : Int)
    (trains : List TrainCandidate) : List TrainCandidate :=
  pySliceTo limit ((eligibleTrains end_time trains).mergeSort keyLe)

/-- Lines 134 and 213: interval = max(3, min(interval, 300)). -/
def clampInterval (interval : Int) : Int :=
  max 3 (min interval 300)

/-- Lines 33-38: extract the digit characters of the raw id; if there are
exactly 11 of them, regroup them as digits[:3]-digits[3:7]-digits[7:],
otherwise return the raw input unchanged. -/
def normalize_id (raw_id : String) : String :=
  let digits := raw_id.toList.filter Char.isDigit
  if digits.length = 11 then
    String.mk (digits.take 3) ++ "-" ++ String.mk ((digits.drop 3).take 4)
      ++ "-" ++ String.mk (digits.drop 7)
  else raw_id

/-- Modelled from the spec (section 6): a checker for the pattern
###-###-#### named by the claim — three digits, a dash, three digits,
a dash, four digits. This definition follows the spec text and exists
only to be compared with the output of normalize_id. -/
def claimedPattern334 (s : String) : Bool :=
  match s.toList with
  | [a1, a2, a3, m1, b1, b2, b3, m2, c1, c2, c3, c4] =>
      a1.isDigit && a2.isDigit && a3.isDigit && (m1 == Char.ofNat 45)
        && b1.isDigit && b2.isDigit && b3.isDigit && (m2 == Char.ofNat 45)
        && c1.isDigit && c2.isDigit && c3.isDigit && c4.isDigit
  | _ => false

/-- Modelled from the spec (section 6, revision note): a checker for the
pattern ###-####-####, an 11-digit split of 3-4-4 — three digits, a
dash, four digits, a dash, four digits. -/
def claimedPattern344 (s : String) : Bool :=
  match s.toList with
  | [a1, a2, a3, m1, b1, b2, b3, b4, m2, c1, c2, c3, c4] =>
      a1.isDigit && a2.isDigit && a3.isDigit && (m1 == Char.ofNat 45)
        && b1.isDigit && b2.isDigit && b3.isDigit && b4.isDigit
        && (m2 == Char.ofNat 45)
        && c1.isDigit && c2.isDigit && c3.isDigit && c4.isDigit
  | _ => false

/-- Line 231-238: the exact-mode candidate filter — all four fields must
equal the targets exactly. -/
def exactMatchPred (date time dep arr : String) (t : TrainCandidate) : Bool :=
  t.dep_date == date && t.dep_time == time && t.dep_name == dep
    && t.arr_name == arr

/-- Lines 231-242: candidates = the exact matches; if empty the cycle
raises NoResultsError, otherwise train = candidates[0]. -/
def selectExactTrain (date time dep arr : String)
    (trains : List TrainCandidate) : Option TrainCandidate :=
  (trains.filter (exactMatchPred date time dep arr)).head?

/-- What the body of one exact-mode try block (lines 228-259) reaches:
no match (raise NoResultsError), a sole selected train without general
seats (log and retry, no reserve call), or a reserve call on the sole
selected train. -/
inductive ExactCycleResult where
  | noResults
  | noSeatsRetry (t : TrainCandidate)
  | reserveAttempt (t : TrainCandidate)
  deriving DecidableEq, Repr

/-- Lines 228-259: select the exact train; if none, NoResultsError;
otherwise check has_general_seat() and only then call reserve. -/
def exactCycle (date time dep arr : String) (trains : List TrainCandidate) :
    ExactCycleResult :=
  match selectExactTrain date time dep arr trains with
  | none => ExactCycleResult.noResults
  | some t =>
      if t.has_general_seat then ExactCycleResult.reserveAttempt t
      else ExactCycleResult.noSeatsRetry t

/-- Outcome of one korail.reserve call on one candidate (line 162):
success, SoldOutError (caught by the inner except, line 177), or any
other exception (escapes the for loop to the outer handlers). -/
inductive ReserveOutcome where
  | success
  | soldOut
  | raised
  deriving DecidableEq, Repr

/-- How the for loop over the shortlist (lines 159-179) ends: a
reservation was returned, the loop ran off the end with every candidate
sold out (falling through to the sleep), or an exception escaped. -/
inductive RangeTryEnd where
  | reserved (t : TrainCandidate)
  | fellThrough
  | escaped (t : TrainCandidate)
  deriving DecidableEq, Repr

/-- Lines 159-179: attempt the shortlist in order against the reserve
oracle R; SoldOutError on a candidate continues with the next one.
Returns the list of candidates actually attempted and how the loop
ended. -/
def tryCandidates (R : TrainCandidate → ReserveOutcome) :
    List TrainCandidate → List TrainCandidate × RangeTryEnd
  | [] => ([], RangeTryEnd.fellThrough)
  | t :: ts =>
    match R t with
    | ReserveOutcome.success => ([t], RangeTryEnd.reserved t)
    | ReserveOutcome.soldOut =>
        let rest := tryCandidates R ts
        (t :: rest.1, rest.2)
    | ReserveOutcome.raised => ([t], RangeTryEnd.escaped t)

/-- What the body of one range-mode try block (lines 150-179) reaches. -/
inductive RangeCycleResult where
  | noResults
  | reserved (t : TrainCandidate) (attempted : List TrainCandidate)
  | fellThroughToSleep (attempted : List TrainCandidate)
  | escaped (t : TrainCandidate) (attempted : List TrainCandidate)
  deriving DecidableEq, Repr

/-- Lines 150-179: build the shortlist; if it is empty raise
NoResultsError (lines 157-158), otherwise run the reservation loop. -/
def rangeCycle (end_time : Option String) (limit : Int)
    (R : TrainCandidate → ReserveOutcome) (trains : List TrainCandidate) :
    RangeCycleResult :=
  let short := selectRange end_time limit trains
  if short.isEmpty then RangeCycleResult.noResults
  else
    let r := tryCandidates R short
    match r.2 with
    | RangeTryEnd.reserved t => RangeCycleResult.reserved t r.1
    | RangeTryEnd.fellThrough => RangeCycleResult.fellThroughToSleep r.1
    | RangeTryEnd.escaped t => RangeCycleResult.escaped t r.1

/-- The classified outcome of one iteration's try block, as seen by the
except handlers shared verbatim by poll_and_reserve (lines 180-196) and
poll_and_reserve_exact_train (lines 260-278): a reservation was
returned; NoResultsError; NeedToLoginError, together with what the
subsequent korail.login() call would report; a SoldOut fall-through
(range mode: every shortlisted candidate sold out; exact mode:
SoldOutError caught at line 273); or any other exception, swallowed by
the catch-all. -/
inductive CycleEvent where
  | reserved
  | noResults
  | sessionExpired (login_ok : Bool)
  | soldOutFallThrough
  | unclassified
  deriving DecidableEq, Repr

/-- The loop-owned mutable state: attempt (line 136/215) and
relogin_attempts (line 137/216). -/
structure LoopState where
  attempt : Nat
  relogin_attempts : Nat
  deriving DecidableEq, Repr

/-- How one iteration hands over control: continue with the next
iteration, return a reservation to the caller, or sys.exit(code). -/
inductive StepNext where
  | cont (s : LoopState)
  | returned (s : LoopState)
  | exited (code : Nat)
  deriving DecidableEq, Repr

/-- One iteration's observable boundary behavior: the handover, whether
time.sleep(interval) at the end of the body (line 196/278) was reached,
and whether korail.login() was called. -/
structure StepOut where
  next : StepNext
  slept : Bool
  login_called : Bool
  deriving DecidableEq, Repr

/-- Lines 136-137 and 215-216: both counters start at zero. -/
def initState : LoopState :=
  { attempt := 0, relogin_attempts := 0 }

/-- One iteration of the while loop (lines 138-196, identically
263-278 for the handlers of the exact-mode loop): attempt += 1, run the
try block, dispatch on its outcome. On NeedToLoginError the counter is
incremented first; if it then exceeds 3 the process exits with code 1
without calling login; otherwise login is called, and a failed login
also exits with code 1. Every branch that neither returns nor exits
falls through to time.sleep(interval). -/
def loopStep (s : LoopState) (ev : CycleEvent) : StepOut :=
  let s1 : LoopState := { s with attempt := s.attempt + 1 }
  match ev with
  | CycleEvent.reserved =>
      { next := StepNext.returned s1, slept := false, login_called := false }
  | CycleEvent.noResults =>
      { next := StepNext.cont s1, slept := true, login_called := false }
  | CycleEvent.soldOutFallThrough =>
      { next := StepNext.cont s1, slept := true, login_called := false }
  | CycleEvent.unclassified =>
      { next := StepNext.cont s1, slept := true, login_called := false }
  | CycleEvent.sessionExpired login_ok =>
      let r := s1.relogin_attempts + 1
      if r > 3 then
        { next := StepNext.exited 1, slept := false, login_called := false }
      else if login_ok then
        { next := StepNext.cont { s1 with relogin_attempts := r },
          slept := true, login_called := true }
      else
        { next := StepNext.exited 1, slept := false, login_called := true }

/-- Run the loop on a list of per-iteration outcomes, collecting each
iteration's boundary behavior until the loop returns or exits (or the
outcome list is exhausted). -/
def runTrace (s : LoopState) : List CycleEvent → List StepOut
  | [] => []
  | e :: es =>
    let o := loopStep s e
    match o.next with
    | StepNext.cont s2 => o :: runTrace s2 es
    | StepNext.returned _ => [o]
    | StepNext.exited _ => [o]

/-- Number of korail.login() calls in a run. -/
def loginCalls (outs : List StepOut) : Nat :=
  outs.countP (fun o => o.login_called)

/-- Sample candidate: an early train with general seats. -/
def tA : TrainCandidate :=
  { dep_date := "20250101", dep_time := "080000", dep_name := "A",
    arr_name := "B", has_general_seat := true }

/-- Sample candidate: a later train with general seats. -/
def tB : TrainCandidate :=
  { dep_date := "20250101", dep_time := "090000", dep_name := "A",
    arr_name := "B", has_general_seat := true }

/-- Sample candidate: a still later train with general seats. -/
def tC : TrainCandidate :=
  { dep_date := "20250101", dep_time := "100000", dep_name := "A",
    arr_name := "B", has_general_seat := true }

/-- Sample candidate: a train without general seats. -/
def tN : TrainCandidate :=
  { dep_date := "20250101", dep_time := "110000", dep_name := "A",
    arr_name := "B", has_general_seat := false }

/-- Sample reserve oracle under which every candidate is sold out. -/
def Rall : TrainCandidate → ReserveOutcome :=
  fun _ => ReserveOutcome.soldOut

/-- C7: the effective sleep between cycles is the configured interval
clamped into the band from 3 to 300 seconds — values below 3 become 3,
values above 300 become 300, and values in between pass unchanged
(lines 134 and 213). -/
theorem clampInterval_spec : ∀ i : Int,
    (i < 3 → clampInterval i = 3) ∧
    (300 < i → clampInterval i = 300) ∧
    (3 ≤ i → i ≤ 300 → clampInterval i = i) := by
  intro i
  unfold clampInterval
  refine ⟨fun h => ?_, fun h => ?_, fun h1 h2 => ?_⟩ <;> omega

/-- Witness for clampInterval_spec at the configured values 1, 1000
and 42. -/
theorem clampInterval_spec_witness :
    clampInterval 1 = 3 ∧ clampInterval 1000 = 300 ∧ clampInterval 42 = 42 :=
  ⟨(clampInterval_spec 1).1 (by decide),
   (clampInterval_spec 1000).2.1 (by decide),
   (clampInterval_spec 42).2.2 (by decide) (by decide)⟩

/-- C8: an unclassified failure is swallowed at the loop boundary
(lines 193-196 and 275-278): the iteration neither returns nor exits,
the relogin counter is unchanged, only the attempt counter advances,
no login is attempted, and control falls through to the sleep. -/
theorem unclassified_swallowed : ∀ s : LoopState,
    loopStep s CycleEvent.unclassified =
      { next := StepNext.cont
          { attempt := s.attempt + 1, relogin_attempts := s.relogin_attempts },
        slept := true, login_called := false } := by
  intro s
  rfl

/-- C4 counterexample: handling the very first SessionExpired with a
successful re-login still reaches time.sleep at line 196/278 — the
iteration does not bypass the inter-cycle sleep, contradicting the
claim that such an iteration proceeds directly to the next one. -/
theorem relogin_sleep_cex :
    (loopStep initState (CycleEvent.sessionExpired true)).slept = true ∧
    (loopStep initState (CycleEvent.sessionExpired true)).next =
      StepNext.cont { attempt := 1, relogin_attempts := 1 } := by
  exact ⟨rfl, rfl⟩

/-- C4 amended: every iteration that continues the loop — including an
iteration that handles SessionExpired with a successful re-login —
performs the inter-cycle sleep; the sleep is skipped exactly when the
iteration returns a reservation or exits the process. -/
theorem sleep_iff_continues : ∀ (s : LoopState) (ev : CycleEvent),
    (∃ s2, (loopStep s ev).next = StepNext.cont s2) ↔
      (loopStep s ev).slept = true := by
  intro s ev
  cases ev with
  | reserved => simp [loopStep]
  | noResults => simp [loopStep]
  | soldOutFallThrough => simp [loopStep]
  | unclassified => simp [loopStep]
  | sessionExpired ok =>
    by_cases h : s.relogin_attempts + 1 > 3
    · simp [loopStep, h]
    · cases ok <;> simp [loopStep, h]

/-- C5 counterexample: after the first SessionExpired followed by a
successful login the counter holds 1, not 0 — the code never resets
relogin_attempts, contradicting the claim that a successful re-login
resets it. -/
theorem relogin_counter_reset_cex :
    (loopStep initState (CycleEvent.sessionExpired true)).next =
      StepNext.cont { attempt := 1, relogin_attempts := 1 } ∧
    (1 : Nat) ≠ 0 := by
  exact ⟨rfl, by decide⟩

/-- C5 amended: relogin_attempts starts at 0 and is never reset during
the run: each handled SessionExpired increments it by exactly one even
when the re-login succeeds, and every other continuing or returning
iteration — successful search and reserve included — leaves it
unchanged. -/
theorem relogin_counter_never_reset :
    initState.relogin_attempts = 0 ∧
    ∀ (s : LoopState) (ev : CycleEvent) (s2 : LoopState),
      ((loopStep s ev).next = StepNext.cont s2 ∨
        (loopStep s ev).next = StepNext.returned s2) →
      s2.relogin_attempts =
        (match ev with
         | CycleEvent.sessionExpired _ => s.relogin_attempts + 1
         | _ => s.relogin_attempts) := by
  refine ⟨rfl, ?_⟩
  intro s ev s2 h
  cases ev with
  | reserved =>
    rcases h with h | h <;> simp [loopStep] at h <;> simp [← h]
  | noResults =>
    rcases h with h | h <;> simp [loopStep] at h <;> simp [← h]
  | soldOutFallThrough =>
    rcases h with h | h <;> simp [loopStep] at h <;> simp [← h]
  | unclassified =>
    rcases h with h | h <;> simp [loopStep] at h <;> simp [← h]
  | sessionExpired ok =>
    by_cases hr : s.relogin_attempts + 1 > 3
    · rcases h with h | h <;> simp [loopStep, hr] at h
    · cases ok with
      | true =>
        rcases h with h | h <;> simp [loopStep, hr] at h
        simp [← h]
      | false =>
        rcases h with h | h <;> simp [loopStep, hr] at h

/-- Witness for relogin_counter_never_reset: the state after the first
successfully handled SessionExpired carries counter value 0 + 1. -/
theorem relogin_counter_never_reset_witness :
    ({ attempt := 1, relogin_attempts := 1 } : LoopState).relogin_attempts =
      initState.relogin_attempts + 1 :=
  relogin_counter_never_reset.2 initState (CycleEvent.sessionExpired true)
    { attempt := 1, relogin_attempts := 1 } (Or.inl rfl)

/-- Helper invariant: a run starting with counter value k calls login
at most 3 - k times, because every handled SessionExpired increments
the counter and the guard refuses once the incremented value exceeds 3. -/
theorem loginCalls_runTrace_le (es : List CycleEvent) :
    ∀ s : LoopState, loginCalls (runTrace s es) ≤ 3 - s.relogin_attempts := by
  induction es with
  | nil => intro s; simp [runTrace, loginCalls]
  | cons e es ih =>
    intro s
    cases e with
    | reserved => simp [runTrace, loopStep, loginCalls, List.countP_cons]
    | noResults =>
      simp only [runTrace, loopStep]
      simp only [loginCalls, List.countP_cons] at ih ⊢
      have := ih { s with attempt := s.attempt + 1 }
      simp at this ⊢
      omega
    | soldOutFallThrough =>
      simp only [runTrace, loopStep]
      simp only [loginCalls, List.countP_cons] at ih ⊢
      have := ih { s with attempt := s.attempt + 1 }
      simp at this ⊢
      omega
    | unclassified =>
      simp only [runTrace, loopStep]
      simp only [loginCalls, List.countP_cons] at ih ⊢
      have := ih { s with attempt := s.attempt + 1 }
      simp at this ⊢
      omega
    | sessionExpired ok =>
      by_cases hr : s.relogin_attempts + 1 > 3
      · simp [runTrace, loopStep, hr, loginCalls, List.countP_cons]
      · cases ok with
        | true =>
          simp only [runTrace, loopStep, hr, if_false, if_true, ite_false, ite_true]
          simp only [loginCalls, List.countP_cons] at ih ⊢
          have := ih { attempt := s.attempt + 1,
                       relogin_attempts := s.relogin_attempts + 1 }
          simp at this ⊢
          omega
        | false =>
          simp only [runTrace, loopStep, hr]
          simp [loginCalls, List.countP_cons]
          omega

/-- C3: the session guard never performs more than 3 login calls in one
run; from a state with fewer than 3 consumed re-logins a SessionExpired
triggers a login call, from a state with 3 consumed re-logins it exits
the process with code 1 without calling login; in particular the run
that sees four SessionExpired signals logs in on the first three and
exits on the fourth without a fourth login (lines 182-192 and 262-272). -/
theorem session_guard_bound :
    (∀ es : List CycleEvent, loginCalls (runTrace initState es) ≤ 3) ∧
    (∀ (s : LoopState) (b : Bool), s.relogin_attempts < 3 →
      (loopStep s (CycleEvent.sessionExpired b)).login_called = true) ∧
    (∀ (s : LoopState) (b : Bool), 3 ≤ s.relogin_attempts →
      loopStep s (CycleEvent.sessionExpired b) =
        { next := StepNext.exited 1, slept := false, login_called := false }) ∧
    runTrace initState
        [CycleEvent.sessionExpired true, CycleEvent.sessionExpired true,
         CycleEvent.sessionExpired true, CycleEvent.sessionExpired true] =
      [{ next := StepNext.cont { attempt := 1, relogin_attempts := 1 },
         slept := true, login_called := true },
       { next := StepNext.cont { attempt := 2, relogin_attempts := 2 },
         slept := true, login_called := true },
       { next := StepNext.cont { attempt := 3, relogin_attempts := 3 },
         slept := true, login_called := true },
       { next := StepNext.exited 1, slept := false, login_called := false }] := by
  refine ⟨fun es => ?_, fun s b h => ?_, fun s b h => ?_, by decide⟩
  · have := loginCalls_runTrace_le es initState
    simpa [initState] using this
  · have hr : ¬ (s.relogin_attempts + 1 > 3) := by omega
    cases b <;> simp [loopStep, hr]
  · have hr : s.relogin_attempts + 1 > 3 := by omega
    simp [loopStep, hr]

/-- Witness for session_guard_bound: a state with 2 consumed re-logins
still logs in on SessionExpired, a state with 3 exits without login. -/
theorem session_guard_bound_witness :
    (loopStep { attempt := 5, relogin_attempts := 2 }
        (CycleEvent.sessionExpired true)).login_called = true ∧
    loopStep { attempt := 7, relogin_attempts := 3 }
        (CycleEvent.sessionExpired true) =
      { next := StepNext.exited 1, slept := false, login_called := false } :=
  ⟨session_guard_bound.2.1 { attempt := 5, relogin_attempts := 2 } true (by decide),
   session_guard_bound.2.2.1 { attempt := 7, relogin_attempts := 3 } true (by decide)⟩

/-- Helper: the head of a nonempty shortlist is always attempted,
whatever the reserve oracle answers on it. -/
theorem head_mem_tryCandidates (R : TrainCandidate → ReserveOutcome)
    (u : TrainCandidate) (rest : List TrainCandidate) :
    u ∈ (tryCandidates R (u :: rest)).1 := by
  cases h : R u <;> simp [tryCandidates, h]

/-- C6: a SoldOut failure on one shortlisted candidate never aborts the
range-mode cycle (lines 159-179): when every candidate up to some point
is sold out the next one is attempted within the same cycle, when every
shortlisted candidate is sold out they are all attempted and the loop
runs off the for loop, and that fall-through reaches the sleep. -/
theorem soldOut_moves_on :
    (∀ (R : TrainCandidate → ReserveOutcome) (ts : List TrainCandidate),
      (∀ t ∈ ts, R t = ReserveOutcome.soldOut) →
      tryCandidates R ts = (ts, RangeTryEnd.fellThrough)) ∧
    (∀ (R : TrainCandidate → ReserveOutcome) (pre : List TrainCandidate)
        (t u : TrainCandidate) (rest : List TrainCandidate),
      (∀ x ∈ pre, R x = ReserveOutcome.soldOut) →
      R t = ReserveOutcome.soldOut →
      u ∈ (tryCandidates R (pre ++ t :: u :: rest)).1) ∧
    (∀ s : LoopState,
      (loopStep s CycleEvent.soldOutFallThrough).slept = true ∧
      (loopStep s CycleEvent.soldOutFallThrough).next =
        StepNext.cont
          { attempt := s.attempt + 1,
            relogin_attempts := s.relogin_attempts }) := by
  refine ⟨?_, ?_, fun s => ⟨rfl, rfl⟩⟩
  · intro R ts h
    induction ts with
    | nil => rfl
    | cons t ts ih =>
      have ht : R t = ReserveOutcome.soldOut := h t (by simp)
      have hrest := ih (fun x hx => h x (by simp [hx]))
      simp [tryCandidates, ht, hrest]
  · intro R pre t u rest hpre ht
    induction pre with
    | nil =>
      simp only [List.nil_append]
      simp [tryCandidates, ht]
      exact Or.inr (head_mem_tryCandidates R u rest)
    | cons p pre ih =>
      have hp : R p = ReserveOutcome.soldOut := hpre p (by simp)
      have hrec := ih (fun x hx => hpre x (by simp [hx]))
      simp [tryCandidates, hp]
      exact Or.inr hrec

/-- Witness for soldOut_moves_on: under the all-sold-out oracle both
shortlisted candidates are attempted and the cycle falls through, and
with the first candidate sold out the second is attempted. -/
theorem soldOut_moves_on_witness :
    tryCandidates Rall [tA, tB] = ([tA, tB], RangeTryEnd.fellThrough) ∧
    tB ∈ (tryCandidates Rall ([] ++ tA :: tB :: [])).1 :=
  ⟨soldOut_moves_on.1 Rall [tA, tB] (by intro t ht; rfl),
   soldOut_moves_on.2.1 Rall [] tA tB [] (by intro x hx; cases hx) rfl⟩

/-- Helper: candidates[0] of a filtered list is the first element of
the original list satisfying the filter — everything before it fails
the filter. -/
theorem head_filter_first {α : Type} {p : α → Bool} :
    ∀ {l : List α} {t : α}, (l.filter p).head? = some t →
      p t = true ∧ ∃ pre post, l = pre ++ t :: post ∧ ∀ u ∈ pre, p u = false := by
  intro l
  induction l with
  | nil => intro t h; simp [List.filter] at h
  | cons a l ih =>
    intro t h
    by_cases hp : p a = true
    · rw [List.filter_cons_of_pos hp] at h
      simp only [List.head?] at h
      cases h
      exact ⟨hp, [], l, rfl, by intro u hu; cases hu⟩
    · rw [List.filter_cons_of_neg (by simpa using hp)] at h
      obtain ⟨hpt, pre, post, rfl, hpre⟩ := ih h
      refine ⟨hpt, a :: pre, post, rfl, ?_⟩
      intro u hu
      rcases List.mem_cons.mp hu with rfl | hu
      · simpa using hp
      · exact hpre u hu

/-- C2: exact mode selects at most one candidate per cycle — the sole
value of selectExactTrain — and selects it only when dep_date, dep_time,
dep_name and arr_name each equal the targets exactly; the selected train
is the first such match in the raw results, chosen regardless of seat
availability; and the cycle calls reserve only after the separate
has_general_seat check passes (lines 228-247). -/
theorem exact_mode_selection :
    (∀ (date time dep arr : String) (trains : List TrainCandidate)
        (t : TrainCandidate),
      selectExactTrain date time dep arr trains = some t →
      (t.dep_date = date ∧ t.dep_time = time ∧ t.dep_name = dep ∧
        t.arr_name = arr) ∧
      ∃ pre post, trains = pre ++ t :: post ∧
        ∀ u ∈ pre, exactMatchPred date time dep arr u = false) ∧
    (∀ (date time dep arr : String) (trains : List TrainCandidate)
        (t : TrainCandidate),
      selectExactTrain date time dep arr trains = some t →
      exactCycle date time dep arr trains =
        (if t.has_general_seat then ExactCycleResult.reserveAttempt t
         else ExactCycleResult.noSeatsRetry t)) ∧
    (∀ (date time dep arr : String) (trains : List TrainCandidate)
        (t : TrainCandidate),
      exactCycle date time dep arr trains = ExactCycleResult.reserveAttempt t →
      t.has_general_seat = true) := by
  refine ⟨?_, ?_, ?_⟩
  · intro date time dep arr trains t h
    obtain ⟨hpt, pre, post, rfl, hpre⟩ := head_filter_first h
    have hf : t.dep_date = date ∧ t.dep_time = time ∧ t.dep_name = dep ∧
        t.arr_name = arr := by
      simpa [exactMatchPred, and_assoc] using hpt
    exact ⟨hf, pre, post, rfl, hpre⟩
  · intro date time dep arr trains t h
    unfold exactCycle
    rw [h]
  · intro date time dep arr trains t h
    unfold exactCycle at h
    cases hsel : selectExactTrain date time dep arr trains with
    | none => rw [hsel] at h; simp at h
    | some u =>
      rw [hsel] at h
      by_cases hseat : u.has_general_seat = true
      · simp [hseat] at h
        exact h ▸ hseat
      · simp [hseat] at h

/-- Witness for exact_mode_selection: the seatless train tN is still the
selected sole candidate when it matches exactly (availability checked
separately, no reserve call), and a reserve attempt on tB implies tB had
general seats. -/
theorem exact_mode_selection_witness :
    ((tN.dep_date = "20250101" ∧ tN.dep_time = "110000" ∧ tN.dep_name = "A" ∧
        tN.arr_name = "B") ∧
      ∃ pre post, [tN] = pre ++ tN :: post ∧
        ∀ u ∈ pre, exactMatchPred "20250101" "110000" "A" "B" u = false) ∧
    exactCycle "20250101" "110000" "A" "B" [tN] =
      (if tN.has_general_seat then ExactCycleResult.reserveAttempt tN
       else ExactCycleResult.noSeatsRetry tN) ∧
    tB.has_general_seat = true :=
  ⟨exact_mode_selection.1 "20250101" "110000" "A" "B" [tN] tN (by decide),
   exact_mode_selection.2.1 "20250101" "110000" "A" "B" [tN] tN (by decide),
   exact_mode_selection.2.2 "20250101" "090000" "A" "B" [tB] tB (by decide)⟩

/-- Helper: the code-point comparison is total. -/
theorem charListLe_total : ∀ as bs : List Char,
    (charListLe as bs || charListLe bs as) = true := by
  intro as
  induction as with
  | nil => intro bs; simp [charListLe]
  | cons a as ih =>
    intro bs
    cases bs with
    | nil => simp [charListLe]
    | cons b bs =>
      rcases Nat.lt_trichotomy a.toNat b.toNat with h | h | h
      · simp [charListLe, h]
      · have h2 : ¬ a.toNat < b.toNat := by omega
        have h3 : ¬ b.toNat < a.toNat := by omega
        simp only [charListLe, if_neg h2, if_pos h, if_neg h3, if_pos h.symm]
        exact ih bs
      · have h2 : ¬ a.toNat < b.toNat := by omega
        have h3 : ¬ a.toNat = b.toNat := by omega
        simp [charListLe, h2, h3, h]

/-- Helper: the code-point comparison is transitive. -/
theorem charListLe_trans : ∀ as bs cs : List Char,
    charListLe as bs = true → charListLe bs cs = true →
    charListLe as cs = true := by
  intro as
  induction as with
  | nil => intro bs cs h1 h2; rfl
  | cons a as ih =>
    intro bs cs h1 h2
    cases bs with
    | nil => simp [charListLe] at h1
    | cons b bs =>
      cases cs with
      | nil => simp [charListLe] at h2
      | cons c cs =>
        by_cases hab : a.toNat < b.toNat
        · by_cases hbc : b.toNat < c.toNat
          · have hac : a.toNat < c.toNat := by omega
            simp [charListLe, hac]
          · by_cases hbc2 : b.toNat = c.toNat
            · have hac : a.toNat < c.toNat := by omega
              simp [charListLe, hac]
            · simp [charListLe, hbc, hbc2] at h2
        · by_cases hab2 : a.toNat = b.toNat
          · simp only [charListLe, if_neg hab, if_pos hab2] at h1
            by_cases hbc : b.toNat < c.toNat
            · have hac : a.toNat < c.toNat := by omega
              simp [charListLe, hac]
            · by_cases hbc2 : b.toNat = c.toNat
              · have hac2 : ¬ a.toNat < c.toNat := by omega
                have hac : a.toNat = c.toNat := by omega
                simp only [charListLe, if_neg hbc, if_pos hbc2] at h2
                simp only [charListLe, if_neg hac2, if_pos hac]
                exact ih bs cs h1 h2
              · simp [charListLe, hbc, hbc2] at h2
          · simp [charListLe, hab, hab2] at h1

/-- Helper: the code-point comparison is antisymmetric. -/
theorem charListLe_antisymm : ∀ as bs : List Char,
    charListLe as bs = true → charListLe bs as = true → as = bs := by
  intro as
  induction as with
  | nil =>
    intro bs h1 h2
    cases bs with
    | nil => rfl
    | cons b bs => simp [charListLe] at h2
  | cons a as ih =>
    intro bs h1 h2
    cases bs with
    | nil => simp [charListLe] at h1
    | cons b bs =>
      by_cases hab : a.toNat < b.toNat
      · have h3 : ¬ b.toNat < a.toNat := by omega
        have h4 : ¬ b.toNat = a.toNat := by omega
        simp [charListLe, h3, h4] at h2
      · by_cases hab2 : a.toNat = b.toNat
        · have hba : ¬ b.toNat < a.toNat := by omega
          simp only [charListLe, if_neg hab, if_pos hab2] at h1
          simp only [charListLe, if_neg hba, if_pos hab2.symm] at h2
          have heq : as = bs := ih bs h1 h2
          have hchar : a = b := Char.eq_of_val_eq (UInt32.toNat.inj hab2)
          rw [hchar, heq]
        · simp [charListLe, hab, hab2] at h1

/-- Helper: Python string comparison is antisymmetric. -/
theorem strLe_antisymm (a b : String) :
    strLe a b = true → strLe b a = true → a = b := by
  intro h1 h2
  exact String.toList_inj.mp (charListLe_antisymm _ _ h1 h2)

/-- Helper: the sort key comparison is transitive. -/
theorem keyLe_trans (a b c : TrainCandidate) :
    keyLe a b = true → keyLe b c = true → keyLe a c = true := by
  unfold keyLe
  simp only [beq_iff_eq]
  by_cases e1 : a.dep_date = b.dep_date <;>
    by_cases e2 : b.dep_date = c.dep_date
  · rw [if_pos e1, if_pos e2, if_pos (e1.trans e2)]
    exact charListLe_trans _ _ _
  · have e3 : ¬ a.dep_date = c.dep_date := fun h => e2 (e1.symm.trans h)
    rw [if_pos e1, if_neg e2, if_neg e3]
    intro _ h2
    rw [show a.dep_date = b.dep_date from e1]
    exact h2
  · have e3 : ¬ a.dep_date = c.dep_date := fun h => e1 (h.trans e2.symm)
    rw [if_neg e1, if_pos e2, if_neg e3]
    intro h1 _
    rw [show c.dep_date = b.dep_date from e2.symm]
    exact h1
  · rw [if_neg e1, if_neg e2]
    intro h1 h2
    by_cases e3 : a.dep_date = c.dep_date
    · exfalso
      rw [← e3] at h2
      exact e1 (strLe_antisymm _ _ h1 h2)
    · rw [if_neg e3]
      exact charListLe_trans _ _ _ h1 h2

/-- Helper: the sort key comparison is total. -/
theorem keyLe_total (a b : TrainCandidate) :
    (keyLe a b || keyLe b a) = true := by
  unfold keyLe
  simp only [beq_iff_eq]
  by_cases e : a.dep_date = b.dep_date
  · rw [if_pos e, if_pos e.symm]
    exact charListLe_total _ _
  · rw [if_neg e, if_neg (fun h => e h.symm)]
    exact charListLe_total _ _

/-- Helper: when the eligible list is already sorted the stable sort
keeps it, so the shortlist is a plain Python slice of it. -/
theorem selectRange_eq_of_sorted (e : Option String) (limit : Int)
    (trains : List TrainCandidate)
    (h : List.Pairwise (fun a b => keyLe a b = true) (eligibleTrains e trains)) :
    selectRange e limit trains = pySliceTo limit (eligibleTrains e trains) := by
  unfold selectRange
  rw [List.mergeSort_of_sorted h]

/-- C1 counterexample: with the configured limit -1 (reachable, the CLI
parses the limit as a plain int) and two eligible trains the shortlist
holds one candidate, which is not at most the limit. -/
theorem range_shortlist_limit_cex :
    ¬ (((selectRange none (-1) [tA, tB]).length : Int) ≤ (-1 : Int)) := by
  have h : selectRange none (-1) [tA, tB] = [tA] := by
    rw [selectRange_eq_of_sorted none (-1) [tA, tB] (by decide)]
    decide
  rw [h]
  decide

/-- C1 amended: for a nonnegative limit the range-mode shortlist holds
at most limit candidates (for a negative limit the Python slice instead
drops trailing elements); regardless of limit every shortlisted
candidate has general seats, the shortlist is sorted non-decreasing by
the key pair (dep_date, dep_time), and when an end-time bound is
configured no shortlisted candidate departs after it (lines 150-156). -/
theorem range_shortlist_props :
    ∀ (e : Option String) (limit : Int) (trains : List TrainCandidate),
      (0 ≤ limit → ((selectRange e limit trains).length : Int) ≤ limit) ∧
      (∀ t ∈ selectRange e limit trains, t.has_general_seat = true) ∧
      List.Pairwise (fun a b => keyLe a b = true) (selectRange e limit trains) ∧
      (∀ b, e = some b →
        ∀ t ∈ selectRange e limit trains, strLe t.dep_time b = true) := by
  intro e limit trains
  have hsub : List.Sublist (selectRange e limit trains)
      ((eligibleTrains e trains).mergeSort keyLe) := by
    unfold selectRange pySliceTo
    split
    · exact List.take_sublist _ _
    · exact List.take_sublist _ _
  have hmem : ∀ t ∈ selectRange e limit trains, t ∈ eligibleTrains e trains := by
    intro t ht
    have := hsub.subset ht
    simpa using this
  refine ⟨?_, ?_, ?_, ?_⟩
  · intro hlim
    have h1 : (selectRange e limit trains).length ≤ limit.toNat := by
      unfold selectRange pySliceTo
      rw [if_pos hlim]
      exact List.length_take_le _ _
    calc ((selectRange e limit trains).length : Int)
        ≤ (limit.toNat : Int) := by exact_mod_cast h1
      _ = limit := Int.toNat_of_nonneg hlim
  · intro t ht
    have h2 := hmem t ht
    unfold eligibleTrains at h2
    exact (List.mem_filter.mp h2).2
  · have hs := List.sorted_mergeSort keyLe_trans keyLe_total
      (eligibleTrains e trains)
    exact List.Pairwise.sublist hsub hs
  · rintro b rfl t ht
    have h2 := hmem t ht
    unfold eligibleTrains at h2
    have h3 := (List.mem_filter.mp h2).1
    exact (List.mem_filter.mp h3).2

/-- Witness for range_shortlist_props at a concrete search result with
an end-time bound, limit 1 and a seatless train. -/
theorem range_shortlist_props_witness :
    ((selectRange (some "095959") 1 [tA, tB, tC, tN]).length : Int) ≤ 1 ∧
    (∀ t ∈ selectRange (some "095959") 1 [tA, tB, tC, tN],
      strLe t.dep_time "095959" = true) :=
  ⟨(range_shortlist_props (some "095959") 1 [tA, tB, tC, tN]).1 (by decide),
   (range_shortlist_props (some "095959") 1 [tA, tB, tC, tN]).2.2.2
     "095959" rfl⟩

/-- C10: range-mode truncation is the Python slice trains[:limit], so a
limit of 0 always yields the empty shortlist and the NoResultsError
path, and a negative limit with more than that many eligible trains
yields a nonempty shortlist of all but the last such-many eligible
trains, which the cycle then attempts (lines 154-158). -/
theorem slice_limit_edge_cases :
    (∀ (e : Option String) (R : TrainCandidate → ReserveOutcome)
        (trains : List TrainCandidate),
      selectRange e 0 trains = [] ∧
      rangeCycle e 0 R trains = RangeCycleResult.noResults) ∧
    (∀ (e : Option String) (limit : Int) (R : TrainCandidate → ReserveOutcome)
        (trains : List TrainCandidate),
      limit < 0 → (-limit).toNat < (eligibleTrains e trains).length →
      (selectRange e limit trains).length =
        (eligibleTrains e trains).length - (-limit).toNat ∧
      selectRange e limit trains ≠ [] ∧
      rangeCycle e limit R trains ≠ RangeCycleResult.noResults) := by
  constructor
  · intro e R trains
    have h0 : selectRange e 0 trains = [] := by
      unfold selectRange pySliceTo
      simp
    refine ⟨h0, ?_⟩
    simp [rangeCycle, h0]
  · intro e limit R trains hneg hlen
    have hnn : ¬ (0 ≤ limit) := by omega
    have hlenl : ((eligibleTrains e trains).mergeSort keyLe).length =
        (eligibleTrains e trains).length := List.length_mergeSort _
    have hsel : selectRange e limit trains =
        ((eligibleTrains e trains).mergeSort keyLe).take
          (((eligibleTrains e trains).mergeSort keyLe).length - (-limit).toNat) := by
      unfold selectRange pySliceTo
      rw [if_neg hnn]
    have hlength : (selectRange e limit trains).length =
        (eligibleTrains e trains).length - (-limit).toNat := by
      rw [hsel, List.length_take, hlenl]
      omega
    have hne : selectRange e limit trains ≠ [] := by
      intro hcon
      have hlc := congrArg List.length hcon
      rw [hlength] at hlc
      simp at hlc
      omega
    have hempty : (selectRange e limit trains).isEmpty = false := by
      cases hx : selectRange e limit trains with
      | nil => exact absurd hx hne
      | cons a t => rfl
    refine ⟨hlength, hne, ?_⟩
    cases h2 : (tryCandidates R (selectRange e limit trains)).2 with
    | reserved t => simp [rangeCycle, hempty, h2]
    | fellThrough => simp [rangeCycle, hempty, h2]
    | escaped t => simp [rangeCycle, hempty, h2]

/-- Witness for slice_limit_edge_cases: limit -1 over three eligible
trains keeps the first two and the cycle runs, limit 0 always raises
NoResultsError. -/
theorem slice_limit_edge_cases_witness :
    (selectRange none (-1) [tA, tB, tC]).length =
      (eligibleTrains none [tA, tB, tC]).length - (Int.toNat (-(-1))) ∧
    selectRange none (-1) [tA, tB, tC] ≠ [] ∧
    rangeCycle none (-1) Rall [tA, tB, tC] ≠ RangeCycleResult.noResults ∧
    selectRange none 0 [tA] = [] ∧
    rangeCycle none 0 Rall [tA] = RangeCycleResult.noResults :=
  ⟨(slice_limit_edge_cases.2 none (-1) Rall [tA, tB, tC]
      (by decide) (by decide)).1,
   (slice_limit_edge_cases.2 none (-1) Rall [tA, tB, tC]
      (by decide) (by decide)).2.1,
   (slice_limit_edge_cases.2 none (-1) Rall [tA, tB, tC]
      (by decide) (by decide)).2.2,
   (slice_limit_edge_cases.1 none Rall [tA]).1,
   (slice_limit_edge_cases.1 none Rall [tA]).2⟩

/-- Helper: a list of length four is four explicit elements. -/
theorem exists_four_of_length {α : Type} {l : List α} (h : l.length = 4) :
    ∃ a b c d, l = [a, b, c, d] := by
  cases l with
  | nil => simp at h
  | cons a t =>
    have ht : t.length = 3 := by simpa using h
    obtain ⟨b, c, d, rfl⟩ := List.length_eq_three.mp ht
    exact ⟨a, b, c, d, rfl⟩

/-- Helper: gluing digit groups of sizes 3, 4, 4 with dashes yields a
string that matches the 3-4-4 pattern and whose digit characters are
exactly the groups in order. -/
theorem grouped344_props (g1 g2 g3 : List Char)
    (h1 : g1.length = 3) (h2 : g2.length = 4) (h3 : g3.length = 4)
    (d1 : ∀ c ∈ g1, c.isDigit = true) (d2 : ∀ c ∈ g2, c.isDigit = true)
    (d3 : ∀ c ∈ g3, c.isDigit = true) :
    claimedPattern344
        (String.mk (g1 ++ Char.ofNat 45 :: (g2 ++ Char.ofNat 45 :: g3))) =
      true ∧
    (String.mk
        (g1 ++ Char.ofNat 45 :: (g2 ++ Char.ofNat 45 :: g3))).toList.filter
        Char.isDigit = (g1 ++ g2) ++ g3 := by
  obtain ⟨a1, a2, a3, rfl⟩ := List.length_eq_three.mp h1
  obtain ⟨b1, b2, b3, b4, rfl⟩ := exists_four_of_length h2
  obtain ⟨c1, c2, c3, c4, rfl⟩ := exists_four_of_length h3
  have ha1 : a1.isDigit = true := d1 a1 (by simp)
  have ha2 : a2.isDigit = true := d1 a2 (by simp)
  have ha3 : a3.isDigit = true := d1 a3 (by simp)
  have hb1 : b1.isDigit = true := d2 b1 (by simp)
  have hb2 : b2.isDigit = true := d2 b2 (by simp)
  have hb3 : b3.isDigit = true := d2 b3 (by simp)
  have hb4 : b4.isDigit = true := d2 b4 (by simp)
  have hc1 : c1.isDigit = true := d3 c1 (by simp)
  have hc2 : c2.isDigit = true := d3 c2 (by simp)
  have hc3 : c3.isDigit = true := d3 c3 (by simp)
  have hc4 : c4.isDigit = true := d3 c4 (by simp)
  have hdash : (Char.ofNat 45).isDigit = false := by decide
  constructor
  · simp [claimedPattern344, String.toList, ha1, ha2, ha3, hb1, hb2, hb3,
      hb4, hc1, hc2, hc3, hc4]
  · simp [String.toList, List.filter, ha1, ha2, ha3, hb1, hb2, hb3, hb4,
      hc1, hc2, hc3, hc4, hdash]

/-- C9 counterexample: the code maps the 11-digit input 01012345678 to
010-1234-5678, which does not match the claimed ###-###-#### grouping. -/
theorem normalize_id_pattern_cex :
    normalize_id "01012345678" = "010-1234-5678" ∧
    claimedPattern334 (normalize_id "01012345678") = false := by
  constructor <;> decide

/-- C9 amended: when the raw id contains exactly 11 digit characters
normalize_id regroups exactly those digits, in order, into the 3-4-4
pattern ###-####-####; otherwise it returns the raw input unchanged
(lines 33-38). -/
theorem normalize_id_spec : ∀ raw : String,
    ((raw.toList.filter Char.isDigit).length = 11 →
      claimedPattern344 (normalize_id raw) = true ∧
      (normalize_id raw).toList.filter Char.isDigit =
        raw.toList.filter Char.isDigit) ∧
    ((raw.toList.filter Char.isDigit).length ≠ 11 →
      normalize_id raw = raw) := by
  intro raw
  constructor
  · intro h11
    have hdig : ∀ c ∈ raw.toList.filter Char.isDigit, c.isDigit = true :=
      fun c hc => (List.mem_filter.mp hc).2
    have happ : ∀ l m : List Char, String.mk l ++ String.mk m =
        String.mk (l ++ m) := fun l m => rfl
    have hdstr : ("-" : String) = String.mk [Char.ofNat 45] := rfl
    have hnorm : normalize_id raw =
        String.mk ((raw.toList.filter Char.isDigit).take 3 ++
          Char.ofNat 45 ::
            (((raw.toList.filter Char.isDigit).drop 3).take 4 ++
              Char.ofNat 45 :: (raw.toList.filter Char.isDigit).drop 7)) := by
      unfold normalize_id
      rw [if_pos h11, hdstr, happ, happ, happ, happ]
      apply congrArg String.mk
      simp
    have hg := grouped344_props
      ((raw.toList.filter Char.isDigit).take 3)
      (((raw.toList.filter Char.isDigit).drop 3).take 4)
      ((raw.toList.filter Char.isDigit).drop 7)
      (by rw [List.length_take, h11]; decide)
      (by rw [List.length_take, List.length_drop, h11]; decide)
      (by rw [List.length_drop, h11])
      (fun c hc => hdig c (List.take_subset _ _ hc))
      (fun c hc => hdig c (List.drop_subset _ _ (List.take_subset _ _ hc)))
      (fun c hc => hdig c (List.drop_subset _ _ hc))
    have hsplit : (raw.toList.filter Char.isDigit).take 3 ++
        ((raw.toList.filter Char.isDigit).drop 3).take 4 =
        (raw.toList.filter Char.isDigit).take 7 := by
      rw [show (7 : Nat) = 3 + 4 from rfl, List.take_add]
    rw [hnorm]
    refine ⟨hg.1, ?_⟩
    rw [hg.2, hsplit, List.take_append_drop]
  · intro hne
    unfold normalize_id
    rw [if_neg hne]

/-- Witness for normalize_id_spec at the 11-digit input 01012345678 and
at the 10-digit input 0101234567. -/
theorem normalize_id_spec_witness :
    (claimedPattern344 (normalize_id "01012345678") = true ∧
      (normalize_id "01012345678").toList.filter Char.isDigit =
        ("01012345678" : String).toList.filter Char.isDigit) ∧
    normalize_id "0101234567" = "0101234567" :=
  ⟨(normalize_id_spec "01012345678").1 (by decide),
   (normalize_id_spec "0101234567").2 (by decide)⟩

end MonitorAndReserve
